import Mathlib

/-!
Shallow embedding of the `httpserver` Go package (files `httpserver.go`,
`group.go`): a convenience layer over an HTTP router that injects
request-correlation identifiers, recovers from handler panics, registers
routes per HTTP verb (also through path-prefixed groups), writes
string/JSON responses, renders named HTML templates and serves static
files.  Go strings are modelled as Lean `String` (byte slicing only ever
happens on ASCII literals, where the two coincide), `http.Header` and
`url.Values` as association lists, and the fallible parts return
`Except`/`Option`.
-/

namespace Httpserver

/-! ## Headers

Go's `http.Header` is a map from (canonical) key to a list of values.
The package only ever uses `Get` (first value of the key, `""` when the
key is absent) and `Set` (replace the key's values by the one given), so
a header is modelled as an association list, `Set` as remove-then-append
and `Get` as first lookup. -/

abbrev Header := List (String × String)

/-- `http.Header.Get`: first value stored under the key, `""` if absent. -/
def hGet : Header → String → String
  | [], _ => ""
  | kv :: t, k => if kv.1 = k then kv.2 else hGet t k

/-- Remove every entry stored under the key (the deletion half of a map
assignment). -/
def hDel : Header → String → Header
  | [], _ => []
  | kv :: t, k => if kv.1 = k then hDel t k else kv :: hDel t k

/-- `http.Header.Set`: replace whatever is stored under the key by the
single value given (observationally: delete the key, append the pair). -/
def hSet (h : Header) (k v : String) : Header :=
  hDel h k ++ [(k, v)]

/-- Whether the key is present in the header (even with an empty value):
Go's header map keeps a `Set` key, so an empty value is sent, not omitted. -/
def hHas : Header → String → Bool
  | [], _ => false
  | kv :: t, k => kv.1 = k || hHas t k

theorem hGet_append_right (l : Header) (k : String)
    (hnone : ∀ kv ∈ l, kv.1 ≠ k) (l' : Header) :
    hGet (l ++ l') k = hGet l' k := by
  induction l with
  | nil => rfl
  | cons kv t ih =>
    have hk : kv.1 ≠ k := hnone kv (List.mem_cons_self kv t)
    simp only [List.cons_append, hGet, if_neg hk]
    exact ih (fun x hx => hnone x (List.mem_cons_of_mem kv hx))

theorem hDel_keys (h : Header) (k : String) : ∀ kv ∈ hDel h k, kv.1 ≠ k := by
  induction h with
  | nil => intro kv hkv; cases hkv
  | cons kv t ih =>
    intro x hx
    by_cases hk : kv.1 = k
    · exact ih x (by simpa [hDel, hk] using hx)
    · rcases (by simpa [hDel, hk] using hx : x = kv ∨ x ∈ hDel t k) with h1 | h1
      · rw [h1]; exact hk
      · exact ih x h1

theorem hGet_hSet_self (h : Header) (k v : String) :
    hGet (hSet h k v) k = v := by
  unfold hSet
  rw [hGet_append_right _ _ (hDel_keys h k)]
  simp [hGet]

theorem hGet_hDel_ne (h : Header) (k k' : String) (hne : k' ≠ k) :
    hGet (hDel h k) k' = hGet h k' := by
  induction h with
  | nil => rfl
  | cons kv t ih =>
    by_cases hk : kv.1 = k
    · have : kv.1 ≠ k' := by rw [hk]; exact Ne.symm hne
      simp [hDel, hGet, hk, this, ih, Ne.symm hne]
    · by_cases hk' : kv.1 = k'
      · simp [hDel, hGet, hk, hk', hne]
      · simp [hDel, hGet, hk, hk', ih]

theorem hGet_hSet_ne (h : Header) (k v k' : String) (hne : k' ≠ k) :
    hGet (hSet h k v) k' = hGet h k' := by
  unfold hSet
  induction h with
  | nil => simp [hGet, hDel, Ne.symm hne]
  | cons kv t ih =>
    by_cases hk : kv.1 = k
    · have : kv.1 ≠ k' := by rw [hk]; exact Ne.symm hne
      simp only [hDel, if_pos hk, hGet, if_neg this]
      exact ih
    · by_cases hk' : kv.1 = k'
      · simp [hDel, hGet, hk, hk', hne]
      · simp only [hDel, if_neg hk, List.cons_append, hGet, if_neg hk']
        exact ih

theorem hHas_hSet_self (h : Header) (k v : String) :
    hHas (hSet h k v) k = true := by
  unfold hSet
  induction h with
  | nil => simp [hHas, hDel]
  | cons kv t ih =>
    by_cases hk : kv.1 = k
    · simpa [hHas, hDel, hk] using ih
    · simpa [hHas, hDel, hk] using ih

/-! ## Requests and the query-value surface

`url.Values` is a map key ↦ list of values; `Add` appends a value to a
key's list and `Encode`/`Query` round-trip it through the raw query
string.  The package reads values only through this surface, so the
query is modelled as the multiset of (key, value) pairs and `Add` as
appending a pair. -/

structure Request where
  method : String
  path : String
  header : Header
  query : List (String × String)

/-- One router parameter captured from the path: `httprouter.Param`. -/
abbrev Params := List (String × String)

inductive Writer where
  /-- `*responseWriter`: the package's own wrapper, recording the resolved
  `Request-Id` and `X-Request-Id` values (field order as in the struct). -/
  | wrapped (requestID : String) (xRequestID : String)
  /-- any `http.ResponseWriter` not produced by the package's wrapping. -/
  | raw
  deriving DecidableEq

/-- The per-route adapter `f` (httpserver.go lines 141–159): injects the
request-id headers, merges captured path parameters into the query
values, and wraps the writer recording the resolved id pair.  The
freshly generated `uuid.New().String()` value is passed in as `u`. -/
def f (u : String) (ps : Params) (r : Request) : Request × Writer :=
  let h0 := r.header
  let h1 := if hGet h0 "Request-Id" = "" ∧ hGet h0 "X-Request-Id" = "" then
      hSet h0 "Request-Id" u
    else h0
  let h2 := if hGet h1 "Request-Id" = "" ∧ hGet h1 "X-Request-Id" ≠ "" then
      hSet h1 "Request-Id" (hGet h1 "X-Request-Id")
    else h1
  let q := if ps.length > 0 then r.query ++ ps else r.query
  ({ r with header := h2, query := q },
   Writer.wrapped (hGet h2 "Request-Id") (hGet h2 "X-Request-Id"))

/-! ## Response writing

The observable effect of a handler on the connection: headers set, the
sequence of status lines written (`WriteHeader` calls) and the sequence
of body chunks written.  `time.Now().Format(...)` is passed in as the
`date` argument. -/

structure Resp where
  header : Header
  statusWrites : List Nat
  bodyWrites : List String
  deriving DecidableEq

/-- `responseHeader` (httpserver.go lines 177–187): always sets `Date`;
when the writer is the package's own `*responseWriter` it echoes the
recorded id pair and writes the given status, otherwise it writes 500
and returns without writing anything else. -/
def responseHeader (date : String) (w : Writer) (statusCode : Nat) (r : Resp) : Resp :=
  let r1 := { r with header := hSet r.header "Date" date }
  match w with
  | Writer.raw => { r1 with statusWrites := r1.statusWrites ++ [500] }
  | Writer.wrapped reqID xReqID =>
      let r2 := { r1 with
        header := hSet (hSet r1.header "Request-Id" reqID) "X-Request-Id" xReqID }
      { r2 with statusWrites := r2.statusWrites ++ [statusCode] }

/-- `Response` (lines 191–194): headers and status, then the raw body. -/
def Response (date : String) (w : Writer) (statusCode : Nat) (body : String)
    (r : Resp) : Resp :=
  let r1 := responseHeader date w statusCode r
  { r1 with bodyWrites := r1.bodyWrites ++ [body] }

/-- `ResponseString` (lines 208–211): headers and status, then the body
formatted with `fmt.Fprintf(w, "%v", body)`; the formatted text is the
`body` argument here. -/
def ResponseString (date : String) (w : Writer) (statusCode : Nat) (body : String)
    (r : Resp) : Resp :=
  let r1 := responseHeader date w statusCode r
  { r1 with bodyWrites := r1.bodyWrites ++ [body] }

/-! ## JSON encoding (`encoding/json`)

A Go value as seen by the JSON encoder: serializable kinds, plus the
kinds `Marshal` rejects (channels and functions).  String contents are
modelled for strings that need no escaping. -/

inductive GoValue where
  | null
  | bool (b : Bool)
  | num (n : Int)
  | str (s : String)
  | arr (xs : List GoValue)
  | obj (fields : List (String × GoValue))
  | chan
  | func

def jsonQuote (s : String) : String := "\"" ++ s ++ "\""

mutual

/-- `json.Marshal`: the serialized text, or an unsupported-type error. -/
def encode : GoValue → Except String String
  | GoValue.null => Except.ok "null"
  | GoValue.bool true => Except.ok "true"
  | GoValue.bool false => Except.ok "false"
  | GoValue.num n => Except.ok (toString n)
  | GoValue.str s => Except.ok (jsonQuote s)
  | GoValue.arr xs => do
      let parts ← encodeItems xs
      Except.ok ("[" ++ String.intercalate "," parts ++ "]")
  | GoValue.obj fs => do
      let parts ← encodeFields fs
      Except.ok ("\x7b" ++ String.intercalate "," parts ++ "\x7d")
  | GoValue.chan => Except.error "json: unsupported type: chan"
  | GoValue.func => Except.error "json: unsupported type: func()"

def encodeItems : List GoValue → Except String (List String)
  | [] => Except.ok []
  | x :: xs => do
      let s ← encode x
      let rest ← encodeItems xs
      Except.ok (s :: rest)

def encodeFields : List (String × GoValue) → Except String (List String)
  | [] => Except.ok []
  | f :: fs => do
      let s ← encode f.2
      let rest ← encodeFields fs
      Except.ok ((jsonQuote f.1 ++ ":" ++ s) :: rest)

end

/-- `ResponseJSON` (lines 200–204): sets `Content-Type`, writes headers
and status, then encodes the body into the writer.  `json.Encoder.Encode`
marshals first and writes nothing on a marshal error (it appends a
newline after the document on success); the returned `error` is the
second component. -/
def ResponseJSON (date : String) (w : Writer) (statusCode : Nat) (body : GoValue)
    (r : Resp) : Resp × Option String :=
  let r1 := { r with header := hSet r.header "Content-Type" "application/json" }
  let r2 := responseHeader date w statusCode r1
  match encode body with
  | Except.error e => (r2, some e)
  | Except.ok s => ({ r2 with bodyWrites := r2.bodyWrites ++ [s ++ "\n"] }, none)

/-! ## The panic guard -/

inductive Outcome where
  | ok
  | panicked
  deriving DecidableEq

/-- What executing the wrapped handler with a given response state does:
its writes, and whether it returned normally or panicked. -/
abbrev HandlerFn := Resp → Resp × Outcome

/-- The log lines the guard emits on a panic (timestamp, method, path,
request id, then the stack trace bracketed by the skull markers). -/
def panicLog (ts method path reqid stack : String) : List String :=
  [ts ++ " | httpserver | PANIC | " ++ method ++ " | " ++ path ++ " | " ++ reqid,
   "☠️ ☠️ ☠️ ☠️ ☠️ ☠️  PANIC START (" ++ reqid ++ ") ☠️ ☠️ ☠️ ☠️ ☠️ ☠️",
   stack,
   "☠️ ☠️ ☠️ ☠️ ☠️ ☠️  PANIC END (" ++ reqid ++ ") ☠️ ☠️ ☠️ ☠️ ☠️ ☠️"]

/-- `Server.recoverPanic` (lines 161–175): runs the handler; on a panic
it writes a 500 with the fixed body through `ResponseString`, emits the
panic log lines, and swallows the fault — the wrapper itself always
returns normally.  The result is (response state, log lines, outcome of
the wrapper). -/
def recoverPanic (ts stack : String) (next : HandlerFn) (w : Writer)
    (req : Request) (r0 : Resp) : Resp × List String × Outcome :=
  match next r0 with
  | (r1, Outcome.ok) => (r1, [], Outcome.ok)
  | (r1, Outcome.panicked) =>
      (ResponseString ts w 500 "httpserver got panic" r1,
       panicLog ts req.method req.path (hGet req.header "Request-Id") stack,
       Outcome.ok)

/-! ## Route registration

`httprouter.Router` maps (method, path pattern) to a handler; handlers
are abstracted by a tag.  Each `Server`/`Group` verb method registers
the decorated handler under one (or, for `HEADGET`, two) method/path
pairs; the decoration itself is the request-time pipeline above. -/

inductive Method where
  | GET
  | HEAD
  | POST
  | PUT
  | DELETE
  | PATCH
  | OPTIONS
  deriving DecidableEq

abbrev RouteTable := List (Method × String × Nat)

def routerHandle (m : Method) (p : String) (h : Nat) (t : RouteTable) : RouteTable :=
  t ++ [(m, p, h)]

/-- `Server.GET` (line 307): registers under GET. -/
def serverGET (p : String) (h : Nat) (t : RouteTable) : RouteTable :=
  routerHandle Method.GET p h t

/-- `Server.POST` (lines 320–322): registers under POST. -/
def serverPOST (p : String) (h : Nat) (t : RouteTable) : RouteTable :=
  routerHandle Method.POST p h t

/-- `Server.PUT` (lines 324–326): the body calls `s.handlers.POST`, so
the registration goes to the POST table. -/
def serverPUT (p : String) (h : Nat) (t : RouteTable) : RouteTable :=
  routerHandle Method.POST p h t

/-- `Group.PUT` (group.go lines 34–36): registers under PUT at
`prefix + path`. -/
def groupPUT (pre p : String) (h : Nat) (t : RouteTable) : RouteTable :=
  routerHandle Method.PUT (pre ++ p) h t

/-! ## Static file registration

`FILES` checks the wildcard suffix on the raw bytes of the path
(`filePath[len-10:]`); paths are modelled as their character lists,
which agrees with byte slicing on ASCII paths. -/

abbrev RouteTableC := List (Method × List Char × Nat)

def filepathSuffix : List Char := "/*filepath".toList

/-- `Server.FILES` (lines 343–356): panics (an irrecoverable
configuration error, modelled as `Except.error`) unless the path ends
with `/*filepath`; otherwise registers the file-serving handler under
GET at the given path. -/
def FILES (filePath : List Char) (h : Nat) (t : RouteTableC) :
    Except String RouteTableC :=
  if filePath.length < 10 ∨ filePath.drop (filePath.length - 10) ≠ filepathSuffix then
    Except.error ("path must end with /*filepath in path " ++ String.mk filePath)
  else
    Except.ok (t ++ [(Method.GET, filePath, h)])

/-- `Group.FILES` (group.go lines 53–55): delegates to `Server.FILES`
with the group prefix prepended. -/
def groupFILES (pre filePath : List Char) (h : Nat) (t : RouteTableC) :
    Except String RouteTableC :=
  FILES (pre ++ filePath) h t

/-! ## Template rendering (`html/template`)

`RenderMultiHTML` drives the standard template library.  The fragment
of the template language the development models is the one its claims
exercise: literal text and the `template "name"` inclusion action
(delimited by double braces).  Template sources and rendered output are
character lists. -/

inductive TNode where
  | lit (s : List Char)
  | includeT (name : List Char)
  deriving DecidableEq

/-- Scan up to the next opening action delimiter: the literal prefix and,
when the delimiter occurs, the remainder after it. -/
def splitLit : List Char → List Char × Option (List Char)
  | [] => ([], none)
  | '\x7b' :: '\x7b' :: rest => ([], some rest)
  | c :: rest =>
      let p := splitLit rest
      (c :: p.1, p.2)

/-- Scan up to the closing action delimiter: the action content and the
remainder after the delimiter, or `none` when the action is unclosed. -/
def takeAction : List Char → Option (List Char × List Char)
  | [] => none
  | '\x7d' :: '\x7d' :: rest => some ([], rest)
  | c :: rest =>
      match takeAction rest with
      | none => none
      | some p => some (c :: p.1, p.2)

def dropSpaces : List Char → List Char
  | ' ' :: rest => dropSpaces rest
  | l => l

/-- The characters of a quoted name up to the closing quote, with the
remainder. -/
def spanQuoted : List Char → Option (List Char × List Char)
  | [] => none
  | '"' :: rest => some ([], rest)
  | c :: rest =>
      match spanQuoted rest with
      | none => none
      | some p => some (c :: p.1, p.2)

/-- Parse one action body: `template "name"` with optional surrounding
spaces; anything else is outside the modelled fragment. -/
def parseActionBody (a : List Char) : Except String TNode :=
  match dropSpaces a with
  | 't' :: 'e' :: 'm' :: 'p' :: 'l' :: 'a' :: 't' :: 'e' :: ' ' :: rest =>
      match dropSpaces (' ' :: rest) with
      | '"' :: r2 =>
          match spanQuoted r2 with
          | some p =>
              if dropSpaces p.2 = [] then Except.ok (TNode.includeT p.1)
              else Except.error "template: unexpected content after template name"
          | none => Except.error "template: unterminated quoted string"
      | _ => Except.error "template: expected quoted template name"
  | _ => Except.error "template: unsupported action"

def parseNodes : Nat → List Char → Except String (List TNode)
  | 0, _ => Except.error "template: parse fuel exhausted"
  | Nat.succ fuel, s =>
      match splitLit s with
      | (litPart, none) =>
          Except.ok (if litPart.isEmpty then [] else [TNode.lit litPart])
      | (litPart, some rest) =>
          match takeAction rest with
          | none => Except.error "template: unclosed action"
          | some p => do
              let node ← parseActionBody p.1
              let nodes ← parseNodes fuel p.2
              Except.ok (if litPart.isEmpty then node :: nodes
                         else TNode.lit litPart :: node :: nodes)

/-- `Template.Parse` on one template source.  Each parse step consumes at
least the two delimiter pairs, so the source length bounds the fuel. -/
def parseTmpl (s : List Char) : Except String (List TNode) :=
  parseNodes (s.length + 1) s

/-- The set of named templates associated with a `*Template` value. -/
abbrev TmplSet := List (List Char × List TNode)

def lookupT : TmplSet → List Char → Option (List TNode)
  | [], _ => none
  | t :: ts, n => if t.1 = n then some t.2 else lookupT ts n

/-- `text/template.maxExecDepth`: the nesting bound on `template`
invocations during execution. -/
def maxExecDepth : Nat := 100000

/-- Execute a node list against a template set: literals are emitted,
`template "n"` executes the associated template one depth level down. -/
def execT (ts : TmplSet) : Nat → List TNode → Except String (List Char)
  | 0, _ => Except.error "exceeded maximum template depth"
  | Nat.succ fuel, nodes =>
      nodes.foldr
        (fun node acc =>
          match node with
          | TNode.lit s => do
              let rest ← acc
              Except.ok (s ++ rest)
          | TNode.includeT n =>
              match lookupT ts n with
              | none => Except.error "no such template"
              | some body => do
                  let a ← execT ts fuel body
                  let rest ← acc
                  Except.ok (a ++ rest))
        (Except.ok [])

/-- Go map read with the zero value `""` for a missing key. -/
def mapGet (m : List (List Char × List Char)) (k : List Char) : List Char :=
  match m.find? (fun p => p.1 == k) with
  | some p => p.2
  | none => []

/-- Parse every non-main template of the map into the template set
(`t.New(k).Parse(v)` for each `k ≠ mainTmplName`). -/
def buildSet : List (List Char × List Char) → List Char → Except String TmplSet
  | [], _ => Except.ok []
  | p :: ps, mainName =>
      if p.1 = mainName then buildSet ps mainName
      else do
        let nodes ← parseTmpl p.2
        let rest ← buildSet ps mainName
        Except.ok ((p.1, nodes) :: rest)

/-- `RenderMultiHTML` (httpserver.go lines 267–297): parse the main
template first, attach every other named template as a sub-template,
then execute the template named `mainTmplName` from the resulting set.
The `data` argument is carried for the signature; the modelled fragment
has no data-referencing actions. -/
def RenderMultiHTML (mainTmplName : List Char)
    (tmplNameToTmpl : List (List Char × List Char)) (_data : GoValue) :
    Except String (List Char) := do
  let mainNodes ← parseTmpl (mapGet tmplNameToTmpl mainTmplName)
  let others ← buildSet tmplNameToTmpl mainTmplName
  let tset := (mainTmplName, mainNodes) :: others
  match lookupT tset mainTmplName with
  | none => Except.error "no such template to execute"
  | some body => execT tset maxExecDepth body

/-! ## Suffix characterisation for `FILES` -/

theorem suffix_iff_drop (fp : List Char) :
    filepathSuffix <:+ fp ↔
      10 ≤ fp.length ∧ fp.drop (fp.length - 10) = filepathSuffix := by
  constructor
  · rintro ⟨t, ht⟩
    subst ht
    have hlen : (t ++ filepathSuffix).length = t.length + 10 := by
      simp [filepathSuffix]
    constructor
    · omega
    · have h10 : (t ++ filepathSuffix).length - 10 = t.length := by omega
      rw [h10, List.drop_left]
  · rintro ⟨hlen, hdrop⟩
    refine ⟨fp.take (fp.length - 10), ?_⟩
    conv_rhs => rw [← List.take_append_drop (fp.length - 10) fp]
    rw [hdrop]

end Httpserver

namespace Httpserver

/-- C2: the claim says a `Server.PUT` registration binds the handler
under POST in addition to binding it under PUT.  At the concrete
registration `serverPUT "/x" 0` on an empty table, the resulting table
is exactly one POST entry and contains no PUT entry, refuting the
"in addition to PUT" half. -/
theorem serverPUT_counterexample :
    serverPUT "/x" 0 [] = [(Method.POST, "/x", 0)] ∧
    (Method.PUT, "/x", 0) ∉ serverPUT "/x" 0 [] := by
  constructor
  · rfl
  · decide

/-- C2 (amended): a `Server.PUT` registration binds the handler under
the POST verb for the given path only — it adds no PUT entry at all. -/
theorem serverPUT_binds_only_POST (p : String) (h : Nat) (t : RouteTable) :
    serverPUT p h t = t ++ [(Method.POST, p, h)] ∧
    (serverPUT p h t).filter (fun e => e.1 == Method.PUT)
      = t.filter (fun e => e.1 == Method.PUT) := by
  constructor
  · rfl
  · show (t ++ [(Method.POST, p, h)]).filter (fun e => e.1 == Method.PUT)
        = t.filter (fun e => e.1 == Method.PUT)
    rw [List.filter_append]
    simp

/-- C9: `Group.PUT` registers the handler under the PUT verb at the
group prefix concatenated with the path, and adds no POST entry
(unlike the Server-level PUT registration). -/
theorem groupPUT_registers_PUT (pre p : String) (h : Nat) (t : RouteTable) :
    groupPUT pre p h t = t ++ [(Method.PUT, pre ++ p, h)] ∧
    (groupPUT pre p h t).filter (fun e => e.1 == Method.POST)
      = t.filter (fun e => e.1 == Method.POST) := by
  constructor
  · rfl
  · show (t ++ [(Method.PUT, pre ++ p, h)]).filter (fun e => e.1 == Method.POST)
        = t.filter (fun e => e.1 == Method.POST)
    rw [List.filter_append]
    simp

/-- C1: the id-injection step of `f`.  When neither `Request-Id` nor
`X-Request-Id` is present (Go reads `""` for an absent header) the
freshly generated identifier is stored as `Request-Id` and — the
generator never returning the empty string — the stored value is
non-empty; when only `X-Request-Id` is present its value is copied into
`Request-Id`; when `Request-Id` is already present the headers are left
entirely unchanged. -/
theorem f_requestId_injection (u : String) (ps : Params) (r : Request) :
    (hGet r.header "Request-Id" = "" → hGet r.header "X-Request-Id" = "" →
      u ≠ "" →
      hGet (f u ps r).1.header "Request-Id" = u ∧
      hGet (f u ps r).1.header "Request-Id" ≠ "") ∧
    (hGet r.header "Request-Id" = "" → hGet r.header "X-Request-Id" ≠ "" →
      hGet (f u ps r).1.header "Request-Id" = hGet r.header "X-Request-Id") ∧
    (hGet r.header "Request-Id" ≠ "" →
      (f u ps r).1.header = r.header) := by
  refine ⟨?_, ?_, ?_⟩
  · intro hr hx hu
    simp only [f]
    rw [if_pos (show hGet r.header "Request-Id" = "" ∧
        hGet r.header "X-Request-Id" = "" from ⟨hr, hx⟩)]
    have ex : hGet (hSet r.header "Request-Id" u) "X-Request-Id" = "" := by
      rw [hGet_hSet_ne _ _ _ _ (by decide)]
      exact hx
    rw [if_neg (show ¬ (hGet (hSet r.header "Request-Id" u) "Request-Id" = "" ∧
        hGet (hSet r.header "Request-Id" u) "X-Request-Id" ≠ "") from
        fun hcon => hcon.2 ex)]
    rw [hGet_hSet_self]
    exact ⟨rfl, hu⟩
  · intro hr hx
    simp only [f]
    rw [if_neg (show ¬ (hGet r.header "Request-Id" = "" ∧
        hGet r.header "X-Request-Id" = "") from fun hcon => hx hcon.2)]
    rw [if_pos (show hGet r.header "Request-Id" = "" ∧
        hGet r.header "X-Request-Id" ≠ "" from ⟨hr, hx⟩)]
    rw [hGet_hSet_self]
  · intro hr
    simp only [f]
    rw [if_neg (show ¬ (hGet r.header "Request-Id" = "" ∧
        hGet r.header "X-Request-Id" = "") from fun hcon => hr hcon.1)]
    rw [if_neg (show ¬ (hGet r.header "Request-Id" = "" ∧
        hGet r.header "X-Request-Id" ≠ "") from fun hcon => hr hcon.1)]

/-- C1 witness: the three cases evaluated at concrete requests — no id
headers (a fresh non-empty id is stored), only `X-Request-Id` (copied),
and an existing `Request-Id` (headers untouched). -/
theorem f_requestId_injection_witness :
    (hGet (f "u1" [] ⟨"GET", "/a", [], []⟩).1.header "Request-Id" = "u1" ∧
     hGet (f "u1" [] ⟨"GET", "/a", [], []⟩).1.header "Request-Id" ≠ "") ∧
    hGet (f "u2" [] ⟨"GET", "/a", [("X-Request-Id", "x7")], []⟩).1.header
      "Request-Id" = "x7" ∧
    (f "u3" [] ⟨"GET", "/a", [("Request-Id", "r9")], []⟩).1.header
      = [("Request-Id", "r9")] := by
  refine ⟨?_, ?_, ?_⟩
  · exact (f_requestId_injection "u1" [] ⟨"GET", "/a", [], []⟩).1
      rfl rfl (by decide)
  · have h := (f_requestId_injection "u2" []
      ⟨"GET", "/a", [("X-Request-Id", "x7")], []⟩).2.1 rfl (by decide)
    exact h
  · exact (f_requestId_injection "u3" []
      ⟨"GET", "/a", [("Request-Id", "r9")], []⟩).2.2 (by decide)

/-- C4: every path parameter captured by the router is merged into the
request's query values by `f` before the handler runs, so the handler
reads the captured pair through the query surface. -/
theorem f_merges_path_params (u : String) (ps : Params) (r : Request)
    (k v : String) (hmem : (k, v) ∈ ps) :
    (k, v) ∈ (f u ps r).1.query := by
  have hpos : ps.length > 0 := List.length_pos.2 (List.ne_nil_of_mem hmem)
  simp only [f]
  rw [if_pos hpos]
  exact List.mem_append_right _ hmem

/-- C4 witness: a request matched with the captured parameter
`("id", "42")` can read that pair from the merged query values. -/
theorem f_merges_path_params_witness :
    ("id", "42") ∈ (f "u" [("id", "42")] ⟨"GET", "/u/42", [], []⟩).1.query :=
  f_merges_path_params "u" [("id", "42")] ⟨"GET", "/u/42", [], []⟩
    "id" "42" (by decide)

/-- C10: when a request arrives with neither id header, `f` stores the
generated identifier under `Request-Id` only — `X-Request-Id` remains
empty — and records the pair `(u, "")` on the wrapped writer, so the
header-writing step echoes an `X-Request-Id` header that is present but
set to the empty string (not omitted, not filled with the generated
id). -/
theorem f_generated_id_only_under_requestId (u date : String) (ps : Params)
    (r : Request) (status : Nat) (out : Resp)
    (hr : hGet r.header "Request-Id" = "")
    (hx : hGet r.header "X-Request-Id" = "") :
    hGet (f u ps r).1.header "Request-Id" = u ∧
    hGet (f u ps r).1.header "X-Request-Id" = "" ∧
    (f u ps r).2 = Writer.wrapped u "" ∧
    hGet (responseHeader date (f u ps r).2 status out).header "X-Request-Id" = "" ∧
    hHas (responseHeader date (f u ps r).2 status out).header "X-Request-Id" = true := by
  have ex : hGet (hSet r.header "Request-Id" u) "X-Request-Id" = "" := by
    rw [hGet_hSet_ne _ _ _ _ (by decide)]
    exact hx
  have hpipe : (f u ps r).1.header = hSet r.header "Request-Id" u ∧
      (f u ps r).2 = Writer.wrapped u "" := by
    simp only [f]
    rw [if_pos (show hGet r.header "Request-Id" = "" ∧
        hGet r.header "X-Request-Id" = "" from ⟨hr, hx⟩)]
    rw [if_neg (show ¬ (hGet (hSet r.header "Request-Id" u) "Request-Id" = "" ∧
        hGet (hSet r.header "Request-Id" u) "X-Request-Id" ≠ "") from
        fun hcon => hcon.2 ex)]
    exact ⟨rfl, by rw [hGet_hSet_self, ex]⟩
  refine ⟨?_, ?_, hpipe.2, ?_, ?_⟩
  · rw [hpipe.1, hGet_hSet_self]
  · rw [hpipe.1]; exact ex
  · rw [hpipe.2]
    simp only [responseHeader]
    rw [hGet_hSet_self]
  · rw [hpipe.2]
    simp only [responseHeader]
    rw [hHas_hSet_self]

/-- C10 witness: a concrete request with no id headers, written back
through `responseHeader`: the generated id sits under `Request-Id`, the
echoed `X-Request-Id` is present and empty. -/
theorem f_generated_id_only_under_requestId_witness :
    hGet (f "u9" [] ⟨"GET", "/a", [], []⟩).1.header "Request-Id" = "u9" ∧
    hGet (f "u9" [] ⟨"GET", "/a", [], []⟩).1.header "X-Request-Id" = "" ∧
    (f "u9" [] ⟨"GET", "/a", [], []⟩).2 = Writer.wrapped "u9" "" ∧
    hGet (responseHeader "d" (f "u9" [] ⟨"GET", "/a", [], []⟩).2 200
      ⟨[], [], []⟩).header "X-Request-Id" = "" ∧
    hHas (responseHeader "d" (f "u9" [] ⟨"GET", "/a", [], []⟩).2 200
      ⟨[], [], []⟩).header "X-Request-Id" = true :=
  f_generated_id_only_under_requestId "u9" "d" [] ⟨"GET", "/a", [], []⟩
    200 ⟨[], [], []⟩ rfl rfl

/-- C5: a `FILES` registration fails (with the irrecoverable
configuration panic) exactly when the path does not end with the
wildcard suffix `/*filepath` — in particular for every path shorter
than the suffix — and a path ending with the suffix registers the
file handler under GET without error. -/
theorem FILES_requires_filepath_suffix (fp : List Char) (h : Nat) (t : RouteTableC) :
    ((∃ e, FILES fp h t = Except.error e) ↔ ¬ filepathSuffix <:+ fp) ∧
    (FILES fp h t = Except.ok (t ++ [(Method.GET, fp, h)]) ↔ filepathSuffix <:+ fp) := by
  have hiff := suffix_iff_drop fp
  by_cases hc : fp.length < 10 ∨ fp.drop (fp.length - 10) ≠ filepathSuffix
  · have hns : ¬ filepathSuffix <:+ fp := by
      rw [hiff]
      push_neg
      intro hlen
      rcases hc with hc | hc
      · omega
      · exact hc
    unfold FILES
    rw [if_pos hc]
    constructor
    · simp [hns]
    · simp [hns]
  · have hs : filepathSuffix <:+ fp := by
      push_neg at hc
      rw [hiff]
      exact ⟨by omega, hc.2⟩
    unfold FILES
    rw [if_neg (by push_neg at hc ⊢; exact hc)]
    constructor
    · simp [hs]
    · simp [hs]

/-- C3: the panic guard.  The wrapper always returns normally (never
re-raises); a handler that returns normally passes through untouched —
so a subsequent, unrelated request is served exactly as if no panic had
happened — and a handler that panics before writing anything yields
exactly one 500 status write with the fixed body, plus the log lines
carrying the method, path, request id and the stack trace. -/
theorem recoverPanic_guards (ts stack : String) (next : HandlerFn) (w : Writer)
    (req : Request) (r0 : Resp) :
    (recoverPanic ts stack next w req r0).2.2 = Outcome.ok ∧
    (∀ r1, next r0 = (r1, Outcome.ok) →
      recoverPanic ts stack next w req r0 = (r1, [], Outcome.ok)) ∧
    (next r0 = (r0, Outcome.panicked) →
      ∀ rid xrid, w = Writer.wrapped rid xrid →
      r0.statusWrites = [] → r0.bodyWrites = [] →
      (recoverPanic ts stack next w req r0).1.statusWrites = [500] ∧
      (recoverPanic ts stack next w req r0).1.bodyWrites = ["httpserver got panic"] ∧
      (recoverPanic ts stack next w req r0).2.1
        = panicLog ts req.method req.path (hGet req.header "Request-Id") stack) := by
  refine ⟨?_, ?_, ?_⟩
  · rcases hn : next r0 with ⟨r1, oc⟩
    cases oc <;> simp [recoverPanic, hn]
  · intro r1 hn
    simp [recoverPanic, hn]
  · intro hn rid xrid hw hs hb
    subst hw
    simp only [recoverPanic, hn]
    unfold ResponseString responseHeader
    simp [hs, hb]

/-- C3 witness: a handler that panics without writing, behind a wrapped
writer — the guard produces the single 500 with the fixed body, the
panic log lines, and a normal outcome; a second, normal handler is then
served untouched. -/
theorem recoverPanic_guards_witness :
    (recoverPanic "ts" "st" (fun r => (r, Outcome.panicked))
      (Writer.wrapped "rid" "") ⟨"GET", "/a", [("Request-Id", "rid")], []⟩
      ⟨[], [], []⟩).1.statusWrites = [500] ∧
    (recoverPanic "ts" "st" (fun r => (r, Outcome.panicked))
      (Writer.wrapped "rid" "") ⟨"GET", "/a", [("Request-Id", "rid")], []⟩
      ⟨[], [], []⟩).1.bodyWrites = ["httpserver got panic"] ∧
    (recoverPanic "ts" "st" (fun r => (r, Outcome.panicked))
      (Writer.wrapped "rid" "") ⟨"GET", "/a", [("Request-Id", "rid")], []⟩
      ⟨[], [], []⟩).2.1 = panicLog "ts" "GET" "/a" "rid" "st" ∧
    (recoverPanic "ts" "st" (fun r => (r, Outcome.panicked))
      (Writer.wrapped "rid" "") ⟨"GET", "/a", [("Request-Id", "rid")], []⟩
      ⟨[], [], []⟩).2.2 = Outcome.ok ∧
    recoverPanic "ts" "st" (fun r => (r, Outcome.ok))
      (Writer.wrapped "rid" "") ⟨"GET", "/b", [], []⟩ ⟨[], [], []⟩
      = (⟨[], [], []⟩, [], Outcome.ok) := by
  have h := (recoverPanic_guards "ts" "st" (fun r => (r, Outcome.panicked))
    (Writer.wrapped "rid" "") ⟨"GET", "/a", [("Request-Id", "rid")], []⟩
    ⟨[], [], []⟩).2.2 rfl "rid" "" rfl rfl rfl
  have h2 := (recoverPanic_guards "ts" "st" (fun r => (r, Outcome.ok))
    (Writer.wrapped "rid" "") ⟨"GET", "/b", [], []⟩ ⟨[], [], []⟩).2.1
    ⟨[], [], []⟩ rfl
  have h3 := (recoverPanic_guards "ts" "st" (fun r => (r, Outcome.panicked))
    (Writer.wrapped "rid" "") ⟨"GET", "/a", [("Request-Id", "rid")], []⟩
    ⟨[], [], []⟩).1
  exact ⟨h.1, h.2.1, h.2.2, h3, h2⟩

/-- C8: the header-writing step always sets `Date`; on the package's own
wrapped writer it echoes the recorded `Request-Id`/`X-Request-Id` pair
and writes the given status, and on a foreign writer it writes a 500
and nothing else (no body, no id headers); each response helper
(`Response`, `ResponseString`, `ResponseJSON`) goes through this step,
so each always carries the `Date` header. -/
theorem responseHeader_contract (date : String) (statusCode : Nat) (r : Resp) :
    (∀ w, hGet (responseHeader date w statusCode r).header "Date" = date) ∧
    (∀ rid xrid,
      hGet (responseHeader date (Writer.wrapped rid xrid) statusCode r).header
        "Request-Id" = rid ∧
      hGet (responseHeader date (Writer.wrapped rid xrid) statusCode r).header
        "X-Request-Id" = xrid ∧
      (responseHeader date (Writer.wrapped rid xrid) statusCode r).statusWrites
        = r.statusWrites ++ [statusCode]) ∧
    ((responseHeader date Writer.raw statusCode r).statusWrites
        = r.statusWrites ++ [500] ∧
      (responseHeader date Writer.raw statusCode r).bodyWrites = r.bodyWrites ∧
      (responseHeader date Writer.raw statusCode r).header
        = hSet r.header "Date" date) ∧
    (∀ w body, hGet (Response date w statusCode body r).header "Date" = date) ∧
    (∀ w body, hGet (ResponseString date w statusCode body r).header "Date" = date) ∧
    (∀ w body, hGet (ResponseJSON date w statusCode body r).1.header "Date" = date) := by
  have hdate : ∀ (w : Writer) (r' : Resp),
      hGet (responseHeader date w statusCode r').header "Date" = date := by
    intro w r'
    cases w with
    | wrapped rid xrid =>
        simp only [responseHeader]
        rw [hGet_hSet_ne _ _ _ _ (by decide), hGet_hSet_ne _ _ _ _ (by decide),
          hGet_hSet_self]
    | raw =>
        simp only [responseHeader]
        rw [hGet_hSet_self]
  refine ⟨fun w => hdate w r, ?_, ?_, ?_, ?_, ?_⟩
  · intro rid xrid
    refine ⟨?_, ?_, rfl⟩
    · simp only [responseHeader]
      rw [hGet_hSet_ne _ _ _ _ (by decide), hGet_hSet_self]
    · simp only [responseHeader]
      rw [hGet_hSet_self]
  · exact ⟨rfl, rfl, rfl⟩
  · intro w body
    exact hdate w r
  · intro w body
    exact hdate w r
  · intro w body
    unfold ResponseJSON
    cases henc : encode body
    · simp only [henc]
      exact hdate w _
    · simp only [henc]
      exact hdate w _

/-- C6: `ResponseJSON` returns the encoder's error and writes no body
chunk when the value cannot be encoded as JSON, and on an encodable
value writes exactly the serialized document (the encoder terminates it
with a newline) and returns no error. -/
theorem ResponseJSON_contract (date : String) (w : Writer) (statusCode : Nat)
    (body : GoValue) (r : Resp) :
    (∀ e, encode body = Except.error e →
      (ResponseJSON date w statusCode body r).2 = some e ∧
      (ResponseJSON date w statusCode body r).1.bodyWrites = r.bodyWrites) ∧
    (∀ s, encode body = Except.ok s →
      (ResponseJSON date w statusCode body r).2 = none ∧
      (ResponseJSON date w statusCode body r).1.bodyWrites
        = r.bodyWrites ++ [s ++ "\n"]) := by
  have hbw : ∀ (w' : Writer) (r' : Resp),
      (responseHeader date w' statusCode r').bodyWrites = r'.bodyWrites := by
    intro w' r'
    cases w' <;> rfl
  constructor
  · intro e he
    unfold ResponseJSON
    simp only [he]
    exact ⟨trivial, hbw w _⟩
  · intro s hs
    unfold ResponseJSON
    simp only [hs]
    refine ⟨trivial, ?_⟩
    show (responseHeader date w statusCode _).bodyWrites ++ [s ++ "\n"]
        = r.bodyWrites ++ [s ++ "\n"]
    rw [hbw w _]

/-- C6 witness: an object with a channel-valued field is rejected with
the unsupported-type error and no body chunk is written; the encodable
object is serialized into the body. -/
theorem ResponseJSON_contract_witness :
    encode (GoValue.obj [("a", GoValue.chan)])
      = Except.error "json: unsupported type: chan" ∧
    (ResponseJSON "d" (Writer.wrapped "r" "x") 200
      (GoValue.obj [("a", GoValue.chan)]) ⟨[], [], []⟩).2
      = some "json: unsupported type: chan" ∧
    (ResponseJSON "d" (Writer.wrapped "r" "x") 200
      (GoValue.obj [("a", GoValue.chan)]) ⟨[], [], []⟩).1.bodyWrites = [] ∧
    encode (GoValue.obj [("a", GoValue.num 1)]) = Except.ok "\x7b\"a\":1\x7d" ∧
    (ResponseJSON "d" (Writer.wrapped "r" "x") 200
      (GoValue.obj [("a", GoValue.num 1)]) ⟨[], [], []⟩).2 = none ∧
    (ResponseJSON "d" (Writer.wrapped "r" "x") 200
      (GoValue.obj [("a", GoValue.num 1)]) ⟨[], [], []⟩).1.bodyWrites
      = ["\x7b\"a\":1\x7d\n"] := by
  have he : encode (GoValue.obj [("a", GoValue.chan)])
      = Except.error "json: unsupported type: chan" := by rfl
  have hs : encode (GoValue.obj [("a", GoValue.num 1)])
      = Except.ok "\x7b\"a\":1\x7d" := by rfl
  have h1 := (ResponseJSON_contract "d" (Writer.wrapped "r" "x") 200
    (GoValue.obj [("a", GoValue.chan)]) ⟨[], [], []⟩).1 _ he
  have h2 := (ResponseJSON_contract "d" (Writer.wrapped "r" "x") 200
    (GoValue.obj [("a", GoValue.num 1)]) ⟨[], [], []⟩).2 _ hs
  exact ⟨he, h1.1, h1.2, hs, h2.1, h2.2⟩

/-- C7: `RenderMultiHTML` parses the main template first, attaches every
other named template of the map, and executes the template named by the
main name from the resulting set; on the spec's example — a main
template holding only an inclusion of the fragment `"frag"`, which is
the literal `X` — it renders exactly `X` with no error. -/
theorem RenderMultiHTML_main_and_example :
    (∀ (mainName : List Char) (m : List (List Char × List Char)) (d : GoValue)
        (ns : List TNode) (os : TmplSet),
      parseTmpl (mapGet m mainName) = Except.ok ns →
      buildSet m mainName = Except.ok os →
      RenderMultiHTML mainName m d
        = execT ((mainName, ns) :: os) maxExecDepth ns) ∧
    RenderMultiHTML "main".toList
      [("main".toList, "\x7b\x7btemplate \"frag\"\x7d\x7d".toList),
       ("frag".toList, "X".toList)] GoValue.null = Except.ok "X".toList := by
  constructor
  · intro mainName m d ns os h1 h2
    unfold RenderMultiHTML
    simp only [h1, h2, Except.bind, bind]
    simp [lookupT]
  · rfl

/-- C7 witness: the general clause instantiated at the spec's example —
the main template parses to the single inclusion node, the fragment is
attached, and execution targets the main template by name. -/
theorem RenderMultiHTML_main_and_example_witness :
    RenderMultiHTML "main".toList
      [("main".toList, "\x7b\x7btemplate \"frag\"\x7d\x7d".toList),
       ("frag".toList, "X".toList)] GoValue.null
      = execT (("main".toList, [TNode.includeT "frag".toList])
          :: [("frag".toList, [TNode.lit "X".toList])]) maxExecDepth
          [TNode.includeT "frag".toList] :=
  RenderMultiHTML_main_and_example.1 "main".toList
    [("main".toList, "\x7b\x7btemplate \"frag\"\x7d\x7d".toList),
     ("frag".toList, "X".toList)] GoValue.null
    [TNode.includeT "frag".toList] [("frag".toList, [TNode.lit "X".toList])]
    (by rfl) (by rfl)

end Httpserver
